import Mathlib

/-!
Shallow embedding of the marshalling/adapter/lifecycle layer of
`src/femscript.py` (the `Femscript` class, the `Scope` pretty-printer and the
module-level helpers), together with theorems checking the specification's
claims about it.

Modelling conventions:
* Host (Python) runtime values are the inductive `PyVal`.  Python dispatches
  on the exact runtime type (`type(obj)`), so a `dict` instance and an
  instance of the `Scope` subclass of `dict` are distinct constructors
  (`PyVal.dict` vs `PyVal.scopeInst`), as are `int` and `float` and `bool`.
* Python floats are modelled as exact rationals (`Rat`); the only float
  operations the source performs are `float(int)`, `is_integer` and
  `math.floor`, modelled by the cast, `den = 1` and `num`.
* The engine's `Token` is a `TypedDict`; keys that the source sometimes
  leaves out are modelled with `Option` (`none` = key absent).  The `scope`
  key is special: `to_fs` stores a Python `list` of `{name, value}` dicts
  there (as the `Token` TypedDict declares), while `to_py` reads the key with
  `.items()`, which only works on a `dict`.  `ScopeField` therefore has three
  shapes: key absent, a list of variables, or a name-to-token mapping, and
  `to_py` fails with `AttributeError` on the list shape exactly as CPython
  would.
* Fallible Python code (code that can raise a non-domain exception such as
  `AttributeError`, `KeyError` or `TypeError`) is modelled with
  `Except PyErr`.
-/

/-- The non-domain Python exception kinds the modelled code can raise. -/
inductive PyErr where
  | attributeError
  | keyError
  | typeError
deriving DecidableEq, Repr

/-- A host (Python) runtime value, by exact runtime type.  `scopeInst` is an
instance of the `Scope` subclass of `dict` defined in `src/femscript.py`;
`exc` is a `FemscriptException` instance held as data; `obj` stands for any
other object, identified by reference. -/
inductive PyVal where
  | str (s : String)
  | int (n : Int)
  | float (q : Rat)
  | bool (b : Bool)
  | none
  | list (xs : List PyVal)
  | bytes (bs : List Nat)
  | dict (entries : List (String × PyVal))
  | scopeInst (entries : List (String × PyVal))
  | exc (msg : String)
  | obj (id : Nat)

mutual
/-- The engine value (`Token` TypedDict of `src/femscript.py`): a tag plus
one payload field per tag.  `bytes`, `scope` and `pyobject` keys can be
absent at runtime (`Token(...)` constructor calls in the source omit them). -/
inductive Token where
  | mk (type : String) (value : String) (number : Rat) (list : List Token)
      (bytes : Option (List Nat)) (scope : ScopeField) (pyobject : Option PyVal)

/-- The dynamic shapes the `scope` key of a `Token` takes at runtime:
absent; a Python list of `Variable` dicts (what `to_fs` and `var` store, and
what the `Token` TypedDict declares); or a name-to-token mapping (the shape
`to_py` reads with `.items()`). -/
inductive ScopeField where
  | absent
  | ofList (entries : List Variable)
  | ofDict (entries : List (String × Token))

/-- The `Variable` TypedDict: a `{name, value}` pair. -/
inductive Variable where
  | mk (name : String) (value : Token)
end

def Token.type : Token → String
  | .mk t _ _ _ _ _ _ => t

def Token.value : Token → String
  | .mk _ v _ _ _ _ _ => v

def Token.number : Token → Rat
  | .mk _ _ n _ _ _ _ => n

def Token.list : Token → List Token
  | .mk _ _ _ l _ _ _ => l

def Token.bytes : Token → Option (List Nat)
  | .mk _ _ _ _ b _ _ => b

def Token.scope : Token → ScopeField
  | .mk _ _ _ _ _ s _ => s

def Token.pyobject : Token → Option PyVal
  | .mk _ _ _ _ _ _ p => p

def Variable.name : Variable → String
  | .mk n _ => n

def Variable.value : Variable → Token
  | .mk _ v => v

namespace Femscript

/-- The classifier `Femscript.fs_type`: looks up the exact runtime type of
the object in the inverted `types` table (`str, float, bool, NoneType, list,
bytes, dict`) extended with `int`, defaulting to `"PyObject"`.  Subclass
instances (such as `Scope`, a subclass of `dict`) are not in the table, so
they fall to the default. -/
def fs_type : PyVal → String
  | .str _ => "Str"
  | .float _ => "Int"
  | .bool _ => "Bool"
  | .none => "None"
  | .list _ => "List"
  | .bytes _ => "Bytes"
  | .dict _ => "Scope"
  | .int _ => "Int"
  | .scopeInst _ => "PyObject"
  | .exc _ => "PyObject"
  | .obj _ => "PyObject"

mutual
/-- The encoder `Femscript.to_fs`: builds a `Token` tagged by `fs_type` with
`value = ""`, `number = 0.0`, `list = []`, `bytes = b""`, then overwrites the
one payload field selected by the tag dispatch table.  The `scope` and
`pyobject` keys are only ever added by that overwrite. -/
def to_fs : PyVal → Token
  | .str s => .mk "Str" s 0 [] (some []) .absent Option.none
  | .int n => .mk "Int" "" (n : Rat) [] (some []) .absent Option.none
  | .float q => .mk "Int" "" q [] (some []) .absent Option.none
  | .bool b => .mk "Bool" "" (if b then 1 else 0) [] (some []) .absent Option.none
  | .none => .mk "None" "" 0 [] (some []) .absent Option.none
  | .list xs => .mk "List" "" 0 (to_fs_list xs) (some []) .absent Option.none
  | .bytes bs => .mk "Bytes" "" 0 [] (some bs) .absent Option.none
  | .dict es => .mk "Scope" "" 0 [] (some []) (.ofList (to_fs_scope es)) Option.none
  | .scopeInst es => .mk "PyObject" "" 0 [] (some []) .absent (some (.scopeInst es))
  | .exc m => .mk "PyObject" "" 0 [] (some []) .absent (some (.exc m))
  | .obj i => .mk "PyObject" "" 0 [] (some []) .absent (some (.obj i))

/-- Element-wise encoding of a list, left to right (the comprehension in the
`List` arm of `to_fs`). -/
def to_fs_list : List PyVal → List Token
  | [] => []
  | v :: tl => to_fs v :: to_fs_list tl

/-- Encoding of a mapping's items into a list of `Variable` dicts (the
comprehension in the `Scope` arm of `to_fs`). -/
def to_fs_scope : List (String × PyVal) → List Variable
  | [] => []
  | (k, v) :: tl => .mk k (to_fs v) :: to_fs_scope tl
end

/-- Substring test on character lists, modelling Python's `"Error" in s`. -/
def strHasError : List Char → Bool
  | [] => false
  | c :: tl => "Error".toList.isPrefixOf (c :: tl) || strHasError tl

/-- Python's `"Error" in token["type"]` check. -/
def containsError (s : String) : Bool :=
  strHasError s.toList

/-- The error constructor `Femscript.error`: an `Error`-tagged token whose
string payload is `"Error: " + message`, with zero numeric payload and empty
list payload.  The source omits the `bytes`, `scope` and `pyobject` keys. -/
def error (msg : String) : Token :=
  .mk "Error" ("Error: " ++ msg) 0 [] Option.none .absent Option.none

mutual
/-- The decoder `Femscript.to_py`.  A tag containing `"Error"` decodes to a
`FemscriptException` value carrying the string payload (returned as data, not
raised).  Otherwise the tag is looked up in a dispatch table whose default is
the `Str` rule.  The `Scope` arm runs `token.get("scope", {}).items()`:
an absent key gives an empty mapping, a list-shaped payload raises
`AttributeError` (a Python `list` has no `.items`), a mapping-shaped payload
is decoded entry-wise into a `Scope` instance.  The `Bytes` and `PyObject`
arms index the corresponding key directly, raising `KeyError` when it is
absent. -/
def to_py : Token → Except PyErr PyVal
  | .mk ty v num lst bts sc po =>
    if containsError ty then .ok (.exc v)
    else if ty = "Str" then .ok (.str v)
    else if ty = "Int" then
      .ok (if num.den = 1 then .int num.num else .float num)
    else if ty = "Bool" then .ok (.bool (decide (num ≠ 0)))
    else if ty = "List" then Except.map PyVal.list (to_py_list lst)
    else if ty = "Bytes" then
      match bts with
      | some bs => .ok (.bytes bs)
      | Option.none => .error .keyError
    else if ty = "None" then .ok .none
    else if ty = "Scope" then
      match sc with
      | .absent => .ok (.scopeInst [])
      | .ofList _ => .error .attributeError
      | .ofDict es => Except.map PyVal.scopeInst (to_py_scope es)
    else if ty = "PyObject" then
      match po with
      | some pv => .ok pv
      | Option.none => .error .keyError
    else .ok (.str v)

/-- Element-wise decoding of a list of tokens, left to right; the first
raised exception propagates (the comprehension in the `List` arm). -/
def to_py_list : List Token → Except PyErr (List PyVal)
  | [] => .ok []
  | t :: tl => do
    let v ← to_py t
    let vs ← to_py_list tl
    pure (v :: vs)

/-- Entry-wise decoding of a mapping-shaped scope payload, left to right
(the dict comprehension in the `Scope` arm). -/
def to_py_scope : List (String × Token) → Except PyErr (List (String × PyVal))
  | [] => .ok []
  | (k, t) :: tl => do
    let v ← to_py t
    let vs ← to_py_scope tl
    pure ((k, v) :: vs)
end

/-- The binding-store update `Femscript.add_variable`: linear scan (the
`for`/`enumerate` loop) for the first entry with the incoming variable's
name; if found, the entry at that index is overwritten in place, otherwise
the variable is appended at the end. -/
def add_variable : List Variable → Variable → List Variable
  | [], v => [v]
  | w :: tl, v => if w.name = v.name then v :: tl else w :: add_variable tl v

/-- Name lookup in a binding store (first match wins); used only in theorem
statements, to say whether a name exists after an update. -/
def lookupVar : List Variable → String → Option Token
  | [], _ => Option.none
  | v :: tl, n => if v.name = n then some v.value else lookupVar tl n

/-- Python `dict` item assignment `d[k] = v` on an insertion-ordered dict,
viewed as its item list: an existing key keeps its position and gets the new
value, a new key is appended at the end. -/
def pyDictSet {α : Type} : List (String × α) → String → α → List (String × α)
  | [], k, v => [(k, v)]
  | (k0, v0) :: tl, k, v =>
    if k0 = k then (k, v) :: tl else (k0, v0) :: pyDictSet tl k v

/-- The `Femscript.variables` property: the dict comprehension
`\x7bitem["name"]: to_py(item["value"]) for item in self._variables\x7d`,
built left to right; the first exception `to_py` raises propagates out. -/
def variablesOf (vars : List Variable) : Except PyErr (List (String × PyVal)) :=
  vars.foldlM (fun d x => do
    let v ← to_py x.value
    pure (pyDictSet d x.name v)) []

/-- The binding-state assignment `execute` performs once the external
evaluator has returned its final scope (a dict, iterated with `.items()`):
`self._variables = [\x7b"name": key, "value": value\x7d for key, value in
scope.items()]`.  The previous binding list is not consulted. -/
def execute_update (_prior : List Variable) (finalScope : List (String × Token)) :
    List Variable :=
  finalScope.map fun kv => Variable.mk kv.1 kv.2

/-- Follows the spec's words: the evaluator's final scope "decoded
entry-wise" into the host-visible mapping (an ordered dict built from the
scope's entries in order, each value decoded by the codec). -/
def scopeDecoded (finalScope : List (String × Token)) :
    Except PyErr (List (String × PyVal)) :=
  finalScope.foldlM (fun d kv => do
    let v ← to_py kv.2
    pure (pyDictSet d kv.1 v)) []

/-- The runtime shapes of the `args` parameter of a wrapped function: a
single `Token` dict, or a tuple of tokens (the only sequence shape the
adapter's `isinstance(args, tuple)` test recognizes; the evaluator delivers
positional arguments in it). -/
inductive Args where
  | single (t : Token)
  | tup (ts : List Token)

/-- How a host callable is invoked by the adapter: the leading positional
arguments (the call name, when `with_name` is set, then the decoded
positional arguments) and the keyword arguments (from a decoded scope). -/
structure HostCall where
  pos : List PyVal
  kw : List (String × PyVal)

/-- What invoking the host callable does: return a value, raise the domain
exception `FemscriptException` with a message, or raise some other
exception. -/
inductive CallOutcome where
  | ret (v : PyVal)
  | femRaise (msg : String)
  | pyRaise (e : PyErr)

/-- The tail of the adapter body shared by every dispatch path: the
callable's return value is encoded with `to_fs`; a raised
`FemscriptException` is caught by the `except` clause and turned into
`Femscript.error(str(exc))`; any other exception propagates. -/
def handleOutcome : CallOutcome → Except PyErr Token
  | .ret v => .ok (to_fs v)
  | .femRaise m => .ok (error m)
  | .pyRaise e => .error e

/-- The adapter `Femscript.wrap_function` builds around a host callable (the
immediate-mode `wrapper(name, args, scope)`; the suspending variant wraps
the same dispatch in a coroutine).  If `args` is not a tuple and its `type`
is `"Scope"`, the scope is decoded with `to_py` and the callable is invoked
with the decoded entries as keyword arguments, with `name` prepended as a
positional argument when `with_name` is set.  Otherwise each member of the
tuple is decoded with `to_py`, in order, and passed positionally.  A single
non-tuple argument that is not Scope-tagged falls into the positional path,
which iterates the `Token` dict itself — that yields its string keys, and
`to_py` applied to a string indexes it with `["type"]`, a `TypeError`.
Decoding failures (`AttributeError` from a list-shaped scope payload,
`TypeError` above) are not `FemscriptException`, so the `except` clause does
not catch them. -/
def wrap_function (with_name : Bool) (f : HostCall → CallOutcome)
    (name : String) (args : Args) : Except PyErr Token :=
  let lead : List PyVal := if with_name then [.str name] else []
  match args with
  | .single t =>
    if t.type = "Scope" then
      match to_py t with
      | .error e => .error e
      | .ok (.scopeInst es) => handleOutcome (f ⟨lead, es⟩)
      | .ok _ => .error .typeError
    else .error .typeError
  | .tup ts =>
    match to_py_list ts with
    | .error e => .error e
    | .ok vs => handleOutcome (f ⟨lead ++ vs, []⟩)

end Femscript

/-- Python's `"    " * depth`. -/
def indentStr (d : Nat) : String :=
  String.join (List.replicate d "    ")

/-- One apostrophe, as Python's repr of strings uses. -/
def sQuote : String :=
  String.singleton (Char.ofNat 39)

/-- Modelled leaf cases of Python's builtin `repr`, which `Scope.__str__`
invokes on each value via `\x7bvalue!r\x7d`; the exact leaf text is the
interpreter's and does not matter to any claim, only that it leaves the
shared depth counter alone. -/
def reprAtom : PyVal → String
  | .str s => sQuote ++ s ++ sQuote
  | .int n => toString n
  | .float q => toString q
  | .bool b => if b then "True" else "False"
  | .none => "None"
  | .bytes bs => "b" ++ sQuote ++ String.intercalate " " (bs.map toString) ++ sQuote
  | .exc m => "FemscriptException(" ++ sQuote ++ m ++ sQuote ++ ")"
  | .obj i => "<object " ++ toString i ++ ">"
  | .list _ => ""
  | .dict _ => ""
  | .scopeInst _ => ""

mutual
/-- Python `repr` with the process-wide `Scope.format_depth` counter made
explicit: `reprDepth v d` is the text produced and the counter's value
afterwards, when the counter stands at `d` on entry.  Containers recurse
(builtin list/dict repr calls repr on members, which can reach
`Scope.__repr__`); everything else leaves the counter alone. -/
def reprDepth : PyVal → Nat → String × Nat
  | .scopeInst es, d => scopeStr es d
  | .list xs, d =>
    let sd := reprSeq xs d
    ("[" ++ String.intercalate ", " sd.1 ++ "]", sd.2)
  | .dict es, d =>
    let sd := reprEntrySeq es d
    ("\x7b" ++ String.intercalate ", " sd.1 ++ "\x7d", sd.2)
  | v, d => (reprAtom v, d)

/-- The body of `Scope.__str__`, entered with the counter at `d`: the
counter is incremented, `space` is four spaces per counter level, the item
lines are built left to right (each value rendered with `repr` under the
incremented counter), the closing brace is indented by the counter's value
at that moment minus one, and the counter is decremented. -/
def scopeStr (es : List (String × PyVal)) (d : Nat) : String × Nat :=
  let space := indentStr (d + 1)
  let ld := scopeLines es space (d + 1)
  ("\x7b\n" ++ ld.1 ++ "\n" ++ indentStr (ld.2 - 1) ++ "\x7d", ld.2 - 1)

/-- The `"\n".join(f"\x7bspace\x7d\x7bkey\x7d = \x7bvalue!r\x7d;" ...)` of
`Scope.__str__`, threading the counter through each `repr` call. -/
def scopeLines : List (String × PyVal) → String → Nat → String × Nat
  | [], _, d => ("", d)
  | [(k, v)], space, d =>
    let rd := reprDepth v d
    (space ++ k ++ " = " ++ rd.1 ++ ";", rd.2)
  | (k, v) :: e :: tl, space, d =>
    let rd := reprDepth v d
    let rest := scopeLines (e :: tl) space rd.2
    (space ++ k ++ " = " ++ rd.1 ++ ";" ++ "\n" ++ rest.1, rest.2)

/-- Element-wise repr of a list's members, threading the counter. -/
def reprSeq : List PyVal → Nat → List String × Nat
  | [], d => ([], d)
  | v :: tl, d =>
    let rd := reprDepth v d
    let rest := reprSeq tl rd.2
    (rd.1 :: rest.1, rest.2)

/-- Entry-wise repr of a dict's items, threading the counter. -/
def reprEntrySeq : List (String × PyVal) → Nat → List String × Nat
  | [], d => ([], d)
  | (k, v) :: tl, d =>
    let rd := reprDepth v d
    let rest := reprEntrySeq tl rd.2
    ((sQuote ++ k ++ sQuote ++ ": " ++ rd.1) :: rest.1, rest.2)
end

mutual
/-- Follows the spec's words: the renderer with depth bookkeeping scoped to
the render invocation — an explicit depth parameter threaded through the
recursion, nested scopes one level deeper than their parent. -/
def renderSpec : PyVal → Nat → String
  | .scopeInst es, d =>
    "\x7b\n" ++ renderSpecLines es (indentStr (d + 1)) (d + 1) ++ "\n"
      ++ indentStr d ++ "\x7d"
  | .list xs, d => "[" ++ String.intercalate ", " (renderSpecSeq xs d) ++ "]"
  | .dict es, d =>
    "\x7b" ++ String.intercalate ", " (renderSpecEntries es d) ++ "\x7d"
  | v, _ => reprAtom v

/-- Item lines of a scope at a given depth, for `renderSpec`. -/
def renderSpecLines : List (String × PyVal) → String → Nat → String
  | [], _, _ => ""
  | [(k, v)], space, d => space ++ k ++ " = " ++ renderSpec v d ++ ";"
  | (k, v) :: e :: tl, space, d =>
    space ++ k ++ " = " ++ renderSpec v d ++ ";" ++ "\n"
      ++ renderSpecLines (e :: tl) space d

/-- Member renderings of a list, for `renderSpec`. -/
def renderSpecSeq : List PyVal → Nat → List String
  | [], _ => []
  | v :: tl, d => renderSpec v d :: renderSpecSeq tl d

/-- Entry renderings of a dict, for `renderSpec`. -/
def renderSpecEntries : List (String × PyVal) → Nat → List String
  | [], _ => []
  | (k, v) :: tl, d =>
    (sQuote ++ k ++ sQuote ++ ": " ++ renderSpec v d) :: renderSpecEntries tl d
end

/-- Modelled from the spec: the opaque Program the external parser
(`generate_ast`, a collaborator outside `src/`) produces — "never inspected
or mutated by this layer", so it is determined by the source text it was
parsed from. -/
structure Program where
  source : String
deriving DecidableEq

/-- Modelled from the spec: the opaque token stream of the external
tokenizer (`tokenize(sourceText) -> tokenStream`). -/
structure TokenStream where
  source : String
deriving DecidableEq

/-- What a module-table entry holds at runtime: the source text the
constructor stored (`modules: dict[str, str]`), or the Program that
`parse`/`add_module` stored over it (`_modules: dict[str, list[AST]]`). -/
inductive ModVal where
  | srcText (s : String)
  | prog (p : Program)
deriving DecidableEq

/-- Modelled from the spec: `tokenize(sourceText) -> tokenStream` consumes
source text; handing it an already-parsed Program instead of text is outside
its contract and a type error. -/
def generate_tokens : ModVal → Except PyErr TokenStream
  | .srcText s => .ok ⟨s⟩
  | .prog _ => .error .typeError

/-- Modelled from the spec: `parseProgram(tokenStream) -> Program`. -/
def generate_ast (ts : TokenStream) : Program :=
  ⟨ts.source⟩

/-- The parts of a `Femscript` instance's state that `parse`, `add_module`
and construction touch: the current Program and the module table. -/
structure FemState where
  ast : Option Program
  modules : List (String × ModVal)
deriving DecidableEq

/-- The module loop of `Femscript.parse`: each entry's stored value is fed
to the tokenizer and parser and the result stored back over it. -/
def parseModules : List (String × ModVal) → Except PyErr (List (String × ModVal))
  | [] => .ok []
  | (n, m) :: tl => do
    let ts ← generate_tokens m
    let rest ← parseModules tl
    pure ((n, .prog (generate_ast ts)) :: rest)

/-- `Femscript.parse`: tokenizes and parses `code` into the new Program,
then re-runs the tokenizer and parser on every module-table entry's stored
value. -/
def Femscript.parse (st : FemState) (code : String) : Except PyErr FemState := do
  let ts ← generate_tokens (.srcText code)
  let mods ← parseModules st.modules
  pure { ast := some (generate_ast ts), modules := mods }

/-- `Femscript.__init__` restricted to the state `parse` touches: the module
table is the constructor's `modules` dict of source texts, and when `code`
is given, `parse(code)` runs immediately. -/
def femscript_init (code : Option String) (modules : List (String × String)) :
    Except PyErr FemState :=
  let st : FemState :=
    { ast := Option.none, modules := modules.map fun kv => (kv.1, ModVal.srcText kv.2) }
  match code with
  | some c => Femscript.parse st c
  | Option.none => .ok st

/-- `Femscript.add_module`: parses `code` immediately and stores the
resulting Program under `name` (dict assignment). -/
def Femscript.add_module (st : FemState) (name code : String) : FemState :=
  { st with
    modules := Femscript.pyDictSet st.modules name (.prog (generate_ast ⟨code⟩)) }

mutual
/-- Host values built only from strings, integers, booleans, null, byte
sequences and lists of such values (the claim's value class minus ordered
mappings, which the round trip breaks on, see the C1 theorems). -/
def FlatVal : PyVal → Bool
  | .str _ => true
  | .int _ => true
  | .bool _ => true
  | .none => true
  | .bytes _ => true
  | .list xs => FlatList xs
  | _ => false

/-- Lists of `FlatVal` values. -/
def FlatList : List PyVal → Bool
  | [] => true
  | v :: tl => FlatVal v && FlatList tl
end

/-! ## Helper lemmas -/

@[simp] theorem Token.type_mk (t v : String) (n : Rat) (l : List Token)
    (b : Option (List Nat)) (s : ScopeField) (p : Option PyVal) :
    (Token.mk t v n l b s p).type = t := rfl

@[simp] theorem Token.value_mk (t v : String) (n : Rat) (l : List Token)
    (b : Option (List Nat)) (s : ScopeField) (p : Option PyVal) :
    (Token.mk t v n l b s p).value = v := rfl

@[simp] theorem Token.number_mk (t v : String) (n : Rat) (l : List Token)
    (b : Option (List Nat)) (s : ScopeField) (p : Option PyVal) :
    (Token.mk t v n l b s p).number = n := rfl

@[simp] theorem Token.list_mk (t v : String) (n : Rat) (l : List Token)
    (b : Option (List Nat)) (s : ScopeField) (p : Option PyVal) :
    (Token.mk t v n l b s p).list = l := rfl

@[simp] theorem Token.bytes_mk (t v : String) (n : Rat) (l : List Token)
    (b : Option (List Nat)) (s : ScopeField) (p : Option PyVal) :
    (Token.mk t v n l b s p).bytes = b := rfl

@[simp] theorem Token.scope_mk (t v : String) (n : Rat) (l : List Token)
    (b : Option (List Nat)) (s : ScopeField) (p : Option PyVal) :
    (Token.mk t v n l b s p).scope = s := rfl

@[simp] theorem Token.pyobject_mk (t v : String) (n : Rat) (l : List Token)
    (b : Option (List Nat)) (s : ScopeField) (p : Option PyVal) :
    (Token.mk t v n l b s p).pyobject = p := rfl

@[simp] theorem Variable.nameMk (n : String) (t : Token) :
    (Variable.mk n t).name = n := rfl

@[simp] theorem Variable.valueMk (n : String) (t : Token) :
    (Variable.mk n t).value = t := rfl

@[simp] theorem containsError_Error : Femscript.containsError "Error" = true := by decide

@[simp] theorem containsError_Str : Femscript.containsError "Str" = false := by decide

@[simp] theorem containsError_Int : Femscript.containsError "Int" = false := by decide

@[simp] theorem containsError_Bool : Femscript.containsError "Bool" = false := by decide

@[simp] theorem containsError_List : Femscript.containsError "List" = false := by decide

@[simp] theorem containsError_Bytes : Femscript.containsError "Bytes" = false := by decide

@[simp] theorem containsError_None : Femscript.containsError "None" = false := by decide

@[simp] theorem containsError_Scope : Femscript.containsError "Scope" = false := by decide

@[simp] theorem containsError_PyObject : Femscript.containsError "PyObject" = false := by
  decide

@[simp] theorem exceptBindOk {ε α β : Type} (x : α) (f : α → Except ε β) :
    (Except.ok x : Except ε α) >>= f = f x := rfl

@[simp] theorem exceptBindErr {ε α β : Type} (e : ε) (f : α → Except ε β) :
    (Except.error e : Except ε α) >>= f = .error e := rfl

@[simp] theorem exceptMapOk {ε α β : Type} (f : α → β) (x : α) :
    Except.map f (Except.ok x : Except ε α) = .ok (f x) := rfl

@[simp] theorem exceptMapErr {ε α β : Type} (f : α → β) (e : ε) :
    Except.map f (Except.error e : Except ε α) = .error e := rfl

namespace Femscript

mutual
/-- Decoding inverts encoding on mapping-free values of the claimed class. -/
theorem to_py_to_fs_flat : ∀ v : PyVal, FlatVal v = true → to_py (to_fs v) = .ok v
  | .str s, _ => by simp [to_fs, to_py]
  | .int n, _ => by simp [to_fs, to_py]
  | .bool b, _ => by cases b <;> simp [to_fs, to_py]
  | .none, _ => by simp [to_fs, to_py]
  | .bytes bs, _ => by simp [to_fs, to_py]
  | .list xs, h => by
    have hl := to_py_list_to_fs_flat xs (by simpa [FlatVal] using h)
    simp [to_fs, to_py, hl]

/-- Element-wise version of `to_py_to_fs_flat`. -/
theorem to_py_list_to_fs_flat :
    ∀ xs : List PyVal, FlatList xs = true → to_py_list (to_fs_list xs) = .ok xs
  | [], _ => by simp [to_fs_list, to_py_list]
  | v :: tl, h => by
    have h1 := to_py_to_fs_flat v (by simp [FlatList] at h; exact h.1)
    have h2 := to_py_list_to_fs_flat tl (by simp [FlatList] at h; exact h.2)
    simp [to_fs_list, to_py_list, h1, h2]
end

/-- An integral float comes back in integer form; a non-integral one comes
back as itself. -/
theorem to_py_to_fs_float (q : Rat) :
    to_py (to_fs (.float q)) = .ok (if q.den = 1 then .int q.num else .float q) := by
  simp [to_fs, to_py]

/-- A value the classifier sends to `PyObject` round-trips as the identical
reference. -/
theorem to_py_to_fs_pyobject (v : PyVal) (h : fs_type v = "PyObject") :
    to_py (to_fs v) = .ok v := by
  cases v <;> simp_all [fs_type, to_fs, to_py]

/-- Encoding any mapping and decoding it back fails: `to_fs` stores the
scope payload as a list of name/value pairs, and `to_py` calls `.items()` on
it. -/
theorem to_py_to_fs_dict (es : List (String × PyVal)) :
    to_py (to_fs (.dict es)) = .error .attributeError := by
  simp [to_fs, to_py]

end Femscript

/-! ## Claim theorems -/

/-- C1: evaluation of the round trip at the failing input.  Encoding the
ordered mapping `\x7b"a": 1\x7d` and decoding it back does not give the value
back: `to_fs` stores the scope payload as a list of name/value pairs and
`to_py` calls `.items()` on that list, an `AttributeError`.  On the rest of
the claimed class the round trip does hold: mapping-free values come back
equal, an integral float comes back in integer form, and a `PyObject`-encoded
value comes back as the identical reference. -/
theorem C1_roundtrip_breaks_on_mapping :
    Femscript.to_py (Femscript.to_fs (.dict [("a", .int 1)])) =
      .error .attributeError ∧
    Femscript.to_py
        (Femscript.to_fs (.list [.str "x", .int 2, .bool true, .none, .bytes [7]])) =
      .ok (.list [.str "x", .int 2, .bool true, .none, .bytes [7]]) ∧
    Femscript.to_py (Femscript.to_fs (.float 2)) = .ok (.int 2) ∧
    Femscript.to_py (Femscript.to_fs (.obj 7)) = .ok (.obj 7) := by
  refine ⟨Femscript.to_py_to_fs_dict _, ?_, ?_, ?_⟩
  · exact Femscript.to_py_to_fs_flat _ (by simp [FlatVal, FlatList])
  · rw [Femscript.to_py_to_fs_float]; norm_num
  · exact Femscript.to_py_to_fs_pyobject _ rfl

/-- C5: `add_variable` with a name already present replaces the value in
place at the first entry with that name, leaving every other entry and the
length unchanged; with a fresh name it appends at the end. -/
theorem C5_add_variable_spec :
    ∀ (vs : List Variable) (v : Variable),
      (∀ (pre suf : List Variable) (w : Variable),
        vs = pre ++ w :: suf → (∀ u ∈ pre, u.name ≠ v.name) → w.name = v.name →
        Femscript.add_variable vs v = pre ++ v :: suf ∧
        (Femscript.add_variable vs v).length = vs.length) ∧
      ((∀ u ∈ vs, u.name ≠ v.name) →
        Femscript.add_variable vs v = vs ++ [v]) := by
  intro vs v
  constructor
  · intro pre
    induction pre generalizing vs with
    | nil =>
      rintro suf w rfl _ hw
      simp [Femscript.add_variable, hw]
    | cons u pre ih =>
      rintro suf w rfl hpre hw
      have hu : u.name ≠ v.name := hpre u (by simp)
      have := ih (pre ++ w :: suf) suf w rfl (fun x hx => hpre x (by simp [hx])) hw
      simp [Femscript.add_variable, hu, this.1, this.2]
  · intro h
    induction vs with
    | nil => simp [Femscript.add_variable]
    | cons u tl ih =>
      have hu : u.name ≠ v.name := h u (by simp)
      simp [Femscript.add_variable, hu, ih (fun x hx => h x (by simp [hx]))]

/-- C5 witness: the claim's concrete example.  From a store `[a, b, c]`,
setting `b` to a new value keeps its position and the length; setting a
fresh `d` appends it. -/
theorem C5_add_variable_witness :
    Femscript.add_variable
        [Variable.mk "a" (Token.mk "Int" "" 1 [] (some []) .absent Option.none),
         Variable.mk "b" (Token.mk "Int" "" 2 [] (some []) .absent Option.none),
         Variable.mk "c" (Token.mk "Int" "" 3 [] (some []) .absent Option.none)]
        (Variable.mk "b" (Token.mk "Int" "" 9 [] (some []) .absent Option.none)) =
      [Variable.mk "a" (Token.mk "Int" "" 1 [] (some []) .absent Option.none),
       Variable.mk "b" (Token.mk "Int" "" 9 [] (some []) .absent Option.none),
       Variable.mk "c" (Token.mk "Int" "" 3 [] (some []) .absent Option.none)] ∧
    Femscript.add_variable
        [Variable.mk "a" (Token.mk "Int" "" 1 [] (some []) .absent Option.none),
         Variable.mk "b" (Token.mk "Int" "" 9 [] (some []) .absent Option.none),
         Variable.mk "c" (Token.mk "Int" "" 3 [] (some []) .absent Option.none)]
        (Variable.mk "d" (Token.mk "Int" "" 4 [] (some []) .absent Option.none)) =
      [Variable.mk "a" (Token.mk "Int" "" 1 [] (some []) .absent Option.none),
       Variable.mk "b" (Token.mk "Int" "" 9 [] (some []) .absent Option.none),
       Variable.mk "c" (Token.mk "Int" "" 3 [] (some []) .absent Option.none),
       Variable.mk "d" (Token.mk "Int" "" 4 [] (some []) .absent Option.none)] := by
  constructor
  · exact ((C5_add_variable_spec
      [Variable.mk "a" (Token.mk "Int" "" 1 [] (some []) .absent Option.none),
       Variable.mk "b" (Token.mk "Int" "" 2 [] (some []) .absent Option.none),
       Variable.mk "c" (Token.mk "Int" "" 3 [] (some []) .absent Option.none)]
      (Variable.mk "b" (Token.mk "Int" "" 9 [] (some []) .absent Option.none))).1
      [Variable.mk "a" (Token.mk "Int" "" 1 [] (some []) .absent Option.none)]
      [Variable.mk "c" (Token.mk "Int" "" 3 [] (some []) .absent Option.none)]
      (Variable.mk "b" (Token.mk "Int" "" 2 [] (some []) .absent Option.none))
      rfl (by simp [Variable.name]) rfl).1
  · exact (C5_add_variable_spec _ _).2 (by simp [Variable.name])

/-- C6: `Femscript.error` builds an `Error`-tagged token whose string
payload is `"Error: "` plus the message, with zero numeric payload and empty
list payload; decoding it with `to_py` yields the distinguished exception
value, returned as data, carrying that payload as its message. -/
theorem C6_error_spec :
    ∀ m : String,
      (Femscript.error m).type = "Error" ∧
      (Femscript.error m).value = "Error: " ++ m ∧
      (Femscript.error m).number = 0 ∧
      (Femscript.error m).list = [] ∧
      Femscript.to_py (Femscript.error m) = .ok (.exc ("Error: " ++ m)) ∧
      Femscript.to_py (Femscript.error "boom") = .ok (.exc "Error: boom") := by
  intro m
  refine ⟨rfl, rfl, rfl, rfl, ?_, ?_⟩ <;> simp [Femscript.error, Femscript.to_py]

/-- C7: the classifier is total and deterministic — every host value gets
exactly one tag, drawn from the fixed vocabulary; shapes outside the fixed
table (here: `Scope` instances, exception objects, any other object) map to
`PyObject`; and both floats and ints map to `"Int"`. -/
theorem C7_fs_type_total_det :
    (∀ v : PyVal, ∃! tag : String, Femscript.fs_type v = tag) ∧
    (∀ v : PyVal,
      Femscript.fs_type v = "Str" ∨ Femscript.fs_type v = "Int" ∨
      Femscript.fs_type v = "Bool" ∨ Femscript.fs_type v = "None" ∨
      Femscript.fs_type v = "List" ∨ Femscript.fs_type v = "Bytes" ∨
      Femscript.fs_type v = "Scope" ∨ Femscript.fs_type v = "PyObject") ∧
    (∀ q : Rat, Femscript.fs_type (.float q) = "Int") ∧
    (∀ n : Int, Femscript.fs_type (.int n) = "Int") ∧
    (∀ es, Femscript.fs_type (.scopeInst es) = "PyObject") ∧
    (∀ m, Femscript.fs_type (.exc m) = "PyObject") ∧
    (∀ i, Femscript.fs_type (.obj i) = "PyObject") := by
  refine ⟨fun v => ⟨Femscript.fs_type v, rfl, fun t h => h.symm⟩, fun v => ?_,
    fun q => rfl, fun n => rfl, fun es => rfl, fun m => rfl, fun i => rfl⟩
  cases v <;> simp [Femscript.fs_type]

/-- C2: the adapter's argument-shape dispatch.  A single Scope-tagged token
(not a tuple) is decoded and the callable is invoked with the scope's
entries bound as keyword arguments, with the call name prepended as a
leading positional argument exactly when `with_name` is set; a tuple of
tokens is decoded element-wise, in order, and passed positionally after the
same optional leading name. -/
theorem C2_wrap_function_dispatch :
    ∀ (with_name : Bool) (f : Femscript.HostCall → Femscript.CallOutcome)
      (name : String),
      (∀ (t : Token) (es : List (String × PyVal)),
        t.type = "Scope" → Femscript.to_py t = .ok (.scopeInst es) →
        Femscript.wrap_function with_name f name (.single t) =
          Femscript.handleOutcome
            (f ⟨if with_name then [.str name] else [], es⟩)) ∧
      (∀ (ts : List Token) (vs : List PyVal),
        Femscript.to_py_list ts = .ok vs →
        Femscript.wrap_function with_name f name (.tup ts) =
          Femscript.handleOutcome
            (f ⟨(if with_name then [.str name] else []) ++ vs, []⟩)) := by
  intro with_name f name
  constructor
  · intro t es ht h
    simp [Femscript.wrap_function, ht, h]
  · intro ts vs h
    simp [Femscript.wrap_function, h]

/-- C2 witness: a callable invoked through the adapter with the single
Scope-tagged argument `\x7ba: 1, b: 2\x7d` receives exactly the keyword
arguments `a = 1, b = 2` (here surfaced by a callable that returns its
keyword values as a list). -/
theorem C2_wrap_function_witness :
    Femscript.wrap_function false
        (fun c => .ret (.list (c.kw.map Prod.snd))) "g"
        (.single (Token.mk "Scope" "" 0 [] (some [])
          (.ofDict [("a", Token.mk "Int" "" 1 [] (some []) .absent Option.none),
                    ("b", Token.mk "Int" "" 2 [] (some []) .absent Option.none)])
          Option.none)) =
      .ok (Femscript.to_fs (.list [.int 1, .int 2])) := by
  rw [(C2_wrap_function_dispatch false
      (fun c => .ret (.list (c.kw.map Prod.snd))) "g").1
      (Token.mk "Scope" "" 0 [] (some [])
        (.ofDict [("a", Token.mk "Int" "" 1 [] (some []) .absent Option.none),
                  ("b", Token.mk "Int" "" 2 [] (some []) .absent Option.none)])
        Option.none)
      [("a", PyVal.int 1), ("b", PyVal.int 2)] rfl
      (by simp [Femscript.to_py, Femscript.to_py_scope])]
  rfl

/-- C3: exception containment at the adapter boundary.  Whichever dispatch
shape was taken, when the callable raises the domain exception
`FemscriptException` with message `m` the adapter returns
`Femscript.error m` — the `Error`-tagged token with payload `"Error: " + m`
— instead of propagating; when the callable raises any other exception kind
the adapter does not catch it and it propagates out. -/
theorem C3_exception_containment :
    ∀ (with_name : Bool) (f : Femscript.HostCall → Femscript.CallOutcome)
      (name : String),
      (∀ m : String, (Femscript.error m).type = "Error" ∧
        (Femscript.error m).value = "Error: " ++ m) ∧
      (∀ (ts : List Token) (vs : List PyVal) (m : String),
        Femscript.to_py_list ts = .ok vs →
        f ⟨(if with_name then [.str name] else []) ++ vs, []⟩ = .femRaise m →
        Femscript.wrap_function with_name f name (.tup ts) =
          .ok (Femscript.error m)) ∧
      (∀ (ts : List Token) (vs : List PyVal) (e : PyErr),
        Femscript.to_py_list ts = .ok vs →
        f ⟨(if with_name then [.str name] else []) ++ vs, []⟩ = .pyRaise e →
        Femscript.wrap_function with_name f name (.tup ts) = .error e) ∧
      (∀ (t : Token) (es : List (String × PyVal)) (m : String),
        t.type = "Scope" → Femscript.to_py t = .ok (.scopeInst es) →
        f ⟨if with_name then [.str name] else [], es⟩ = .femRaise m →
        Femscript.wrap_function with_name f name (.single t) =
          .ok (Femscript.error m)) ∧
      (∀ (t : Token) (es : List (String × PyVal)) (e : PyErr),
        t.type = "Scope" → Femscript.to_py t = .ok (.scopeInst es) →
        f ⟨if with_name then [.str name] else [], es⟩ = .pyRaise e →
        Femscript.wrap_function with_name f name (.single t) = .error e) := by
  intro with_name f name
  refine ⟨fun m => ⟨rfl, rfl⟩, ?_, ?_, ?_, ?_⟩
  · intro ts vs m h hf
    simp [Femscript.wrap_function, h, hf, Femscript.handleOutcome]
  · intro ts vs e h hf
    simp [Femscript.wrap_function, h, hf, Femscript.handleOutcome]
  · intro t es m ht h hf
    simp [Femscript.wrap_function, ht, h, hf, Femscript.handleOutcome]
  · intro t es e ht h hf
    simp [Femscript.wrap_function, ht, h, hf, Femscript.handleOutcome]

/-- C3 witness: a registered callable that raises the domain exception with
message `"bad input"` makes the adapter return an `Error`-tagged token with
payload `"Error: bad input"` rather than abort. -/
theorem C3_exception_containment_witness :
    Femscript.wrap_function false (fun _ => .femRaise "bad input") "g" (.tup []) =
      .ok (Femscript.error "bad input") ∧
    (Femscript.error "bad input").value = "Error: bad input" := by
  refine ⟨?_, ((C3_exception_containment false (fun _ => .femRaise "bad input") "g").1
    "bad input").2⟩
  exact (C3_exception_containment false (fun _ => .femRaise "bad input") "g").2.1
    [] [] "bad input" (by simp [Femscript.to_py_list]) rfl

/-- Fold fusion between the `variables` snapshot of a replaced binding list
and the final scope decoded entry-wise. -/
theorem variablesOf_execute_update :
    ∀ (finalScope : List (String × Token)) (init : List (String × PyVal)),
      List.foldlM (fun d x => do
          let v ← Femscript.to_py x.value
          pure (Femscript.pyDictSet d x.name v)) init
        (finalScope.map fun kv => Variable.mk kv.1 kv.2) =
      List.foldlM (fun d kv => do
          let v ← Femscript.to_py kv.2
          pure (Femscript.pyDictSet d kv.1 v)) init finalScope := by
  intro finalScope
  induction finalScope with
  | nil => intro init; rfl
  | cons kv tl ih =>
    intro init
    simp only [List.map_cons, List.foldlM_cons, Variable.nameMk, Variable.valueMk]
    cases h : Femscript.to_py kv.2 with
    | error e => simp [h]
    | ok v =>
      simp only [h, Except.map_ok, exceptBindOk]
      exact ih _

/-- C4: after `execute()` returns the evaluator's final scope, the binding
list holds exactly that scope's name/value pairs in the scope's order,
independently of whatever bindings existed before (total replacement, so a
name absent from the final scope no longer resolves), and the `variables`
snapshot equals the final scope decoded entry-wise. -/
theorem C4_execute_replaces_bindings :
    ∀ (prior : List Variable) (finalScope : List (String × Token)),
      (Femscript.execute_update prior finalScope).map (fun w => (w.name, w.value)) =
        finalScope ∧
      (∀ p2 : List Variable,
        Femscript.execute_update prior finalScope =
          Femscript.execute_update p2 finalScope) ∧
      (∀ n : String, n ∉ finalScope.map Prod.fst →
        Femscript.lookupVar (Femscript.execute_update prior finalScope) n =
          Option.none) ∧
      Femscript.variablesOf (Femscript.execute_update prior finalScope) =
        Femscript.scopeDecoded finalScope := by
  intro prior finalScope
  refine ⟨?_, fun p2 => rfl, ?_, ?_⟩
  · induction finalScope with
    | nil => rfl
    | cons kv tl ih => simp_all [Femscript.execute_update]
  · intro n hn
    induction finalScope with
    | nil => rfl
    | cons kv tl ih =>
      simp only [List.map_cons, List.mem_cons, not_or] at hn
      simpa [Femscript.execute_update, Femscript.lookupVar, Ne.symm hn.1] using
        ih hn.2
  · exact variablesOf_execute_update finalScope []

/-- C4 witness: a binding present before execution (`old`) but absent from
the returned scope is gone afterwards, and the new list is exactly the
returned scope's pairs. -/
theorem C4_execute_witness :
    Femscript.lookupVar
        (Femscript.execute_update
          [Variable.mk "old" (Token.mk "Int" "" 1 [] (some []) .absent Option.none)]
          [("x", Token.mk "Str" "s" 0 [] (some []) .absent Option.none)]) "old" =
      Option.none ∧
    Femscript.execute_update
        [Variable.mk "old" (Token.mk "Int" "" 1 [] (some []) .absent Option.none)]
        [("x", Token.mk "Str" "s" 0 [] (some []) .absent Option.none)] =
      [Variable.mk "x" (Token.mk "Str" "s" 0 [] (some []) .absent Option.none)] := by
  refine ⟨(C4_execute_replaces_bindings
    [Variable.mk "old" (Token.mk "Int" "" 1 [] (some []) .absent Option.none)]
    [("x", Token.mk "Str" "s" 0 [] (some []) .absent Option.none)]).2.2.1 "old"
    (by simp), rfl⟩

/-- C10: `fs_type` dispatches on the exact runtime type, not on subtyping:
a `Scope` instance — the very type `to_py` produces when decoding a
Scope-tagged token — is classified `PyObject` even though `Scope` is a
subclass of `dict` (which classifies as `Scope`), as is a
`FemscriptException` instance; hence whenever decoding a Scope-tagged token
succeeds, re-encoding the result yields a `PyObject`-tagged token. -/
theorem C10_subclass_is_pyobject :
    (∀ es, Femscript.fs_type (.scopeInst es) = "PyObject" ∧
      Femscript.fs_type (.dict es) = "Scope") ∧
    (∀ m, Femscript.fs_type (.exc m) = "PyObject") ∧
    (∀ (t : Token) (v : PyVal),
      t.type = "Scope" → Femscript.to_py t = .ok v →
      (∃ es, v = .scopeInst es) ∧ (Femscript.to_fs v).type = "PyObject") := by
  refine ⟨fun es => ⟨rfl, rfl⟩, fun m => rfl, ?_⟩
  intro t v ht h
  obtain ⟨ty, val, num, lst, bts, sc, po⟩ := t
  simp only [Token.type_mk] at ht
  subst ht
  cases sc with
  | absent =>
    simp [Femscript.to_py] at h
    subst h
    exact ⟨⟨[], rfl⟩, by simp [Femscript.to_fs]⟩
  | ofList l =>
    simp [Femscript.to_py] at h
  | ofDict es =>
    cases hs : Femscript.to_py_scope es with
    | error e =>
      simp [Femscript.to_py, hs] at h
    | ok l =>
      simp [Femscript.to_py, hs] at h
      subst h
      exact ⟨⟨l, rfl⟩, by simp [Femscript.to_fs]⟩

/-- C10 witness: re-encoding the decoding of a Scope-tagged token yields a
PyObject-tagged token, at the concrete token whose scope payload is absent
(which `to_py` decodes to an empty `Scope` instance). -/
theorem C10_subclass_witness :
    (Femscript.to_fs (.scopeInst [])).type = "PyObject" ∧
    Femscript.to_py (Token.mk "Scope" "" 0 [] (some []) .absent Option.none) =
      .ok (.scopeInst []) := by
  refine ⟨(C10_subclass_is_pyobject.2.2
    (Token.mk "Scope" "" 0 [] (some []) .absent Option.none) (.scopeInst []) rfl
    ?_).2, ?_⟩ <;> simp [Femscript.to_py]

/-- C8: evaluation of `parse`'s module re-parsing at the failing input.
Construction with `code = "a"` and module `m` holding source `"b"` parses
both (first conjunct — at this point the module's stored source has been
overwritten by its Program).  A second `parse()` call then hands that stored
Program, not source text, to the tokenizer — a type error — contrary to the
claim that every `parse()` re-parses each module's stored source.  The same
happens after `add_module`, which stores the parsed Program immediately
(third conjunct), so the next `parse()` fails the same way (fourth
conjunct). -/
theorem C8_parse_module_reparse_breaks :
    femscript_init (some "a") [("m", "b")] =
      .ok { ast := some ⟨"a"⟩, modules := [("m", ModVal.prog ⟨"b"⟩)] } ∧
    Femscript.parse { ast := some ⟨"a"⟩, modules := [("m", ModVal.prog ⟨"b"⟩)] } "a" =
      .error .typeError ∧
    (Femscript.add_module { ast := Option.none, modules := [] } "m" "b").modules =
      [("m", ModVal.prog ⟨"b"⟩)] ∧
    Femscript.parse { ast := Option.none, modules := [("m", ModVal.prog ⟨"b"⟩)] } "c" =
      .error .typeError := by
  exact ⟨rfl, rfl, rfl, rfl⟩

mutual
/-- The renderer with the process-wide depth counter agrees with the
depth-threaded renderer and always restores the counter it found. -/
theorem reprDepth_eq_spec : ∀ (v : PyVal) (d : Nat),
    reprDepth v d = (renderSpec v d, d)
  | .str s, d => by simp [reprDepth, renderSpec]
  | .int n, d => by simp [reprDepth, renderSpec]
  | .float q, d => by simp [reprDepth, renderSpec]
  | .bool b, d => by simp [reprDepth, renderSpec]
  | .none, d => by simp [reprDepth, renderSpec]
  | .bytes bs, d => by simp [reprDepth, renderSpec]
  | .exc m, d => by simp [reprDepth, renderSpec]
  | .obj i, d => by simp [reprDepth, renderSpec]
  | .scopeInst es, d => by
    have h := scopeLines_eq_spec es (indentStr (d + 1)) (d + 1)
    simp [reprDepth, scopeStr, renderSpec, h]
  | .list xs, d => by
    have h := reprSeq_eq_spec xs d
    simp [reprDepth, renderSpec, h]
  | .dict es, d => by
    have h := reprEntrySeq_eq_spec es d
    simp [reprDepth, renderSpec, h]

/-- Item-lines version of `reprDepth_eq_spec`. -/
theorem scopeLines_eq_spec : ∀ (es : List (String × PyVal)) (space : String) (d : Nat),
    scopeLines es space d = (renderSpecLines es space d, d)
  | [], _, _ => by simp [scopeLines, renderSpecLines]
  | [(k, v)], space, d => by
    have h := reprDepth_eq_spec v d
    simp [scopeLines, renderSpecLines, h]
  | (k, v) :: e :: tl, space, d => by
    have h1 := reprDepth_eq_spec v d
    have h2 := scopeLines_eq_spec (e :: tl) space d
    simp [scopeLines, renderSpecLines, h1, h2]

/-- List-members version of `reprDepth_eq_spec`. -/
theorem reprSeq_eq_spec : ∀ (xs : List PyVal) (d : Nat),
    reprSeq xs d = (renderSpecSeq xs d, d)
  | [], _ => by simp [reprSeq, renderSpecSeq]
  | v :: tl, d => by
    have h1 := reprDepth_eq_spec v d
    have h2 := reprSeq_eq_spec tl d
    simp [reprSeq, renderSpecSeq, h1, h2]

/-- Dict-entries version of `reprDepth_eq_spec`. -/
theorem reprEntrySeq_eq_spec : ∀ (es : List (String × PyVal)) (d : Nat),
    reprEntrySeq es d = (renderSpecEntries es d, d)
  | [], _ => by simp [reprEntrySeq, renderSpecEntries]
  | (k, v) :: tl, d => by
    have h1 := reprDepth_eq_spec v d
    have h2 := reprEntrySeq_eq_spec tl d
    simp [reprEntrySeq, renderSpecEntries, h1, h2]
end

/-- C9: scope rendering nests one level (four spaces) deeper per nesting
depth and its depth bookkeeping is confined to each top-level render: the
stateful renderer equals the depth-threaded one and leaves the shared
counter where it found it, so a render is unaffected by a completed earlier
render; concretely, rendering a scope holding a nested scope from counter 0
indents the outer entry four spaces and the nested block eight, and ends
with the counter back at 0. -/
theorem C9_scope_render_depth :
    (∀ (v : PyVal) (d : Nat), reprDepth v d = (renderSpec v d, d)) ∧
    (∀ (v w : PyVal) (d : Nat), reprDepth w (reprDepth v d).2 = reprDepth w d) ∧
    (reprDepth (.scopeInst [("a", .scopeInst [("b", .int 1)])]) 0).1 =
      "\x7b\n    a = \x7b\n        b = 1;\n    \x7d;\n\x7d" ∧
    (reprDepth (.scopeInst [("a", .scopeInst [("b", .int 1)])]) 0).2 = 0 := by
  refine ⟨reprDepth_eq_spec, fun v w d => by rw [reprDepth_eq_spec v d], ?_, ?_⟩
  · rw [reprDepth_eq_spec]
    simp [renderSpec, renderSpecLines, reprAtom, indentStr]
    rfl
  · rw [reprDepth_eq_spec]
